import Mathlib

set_option maxRecDepth 10000

/-!
Verification development for the spreadsheet-to-Postgres ETL script
(src/read_gsheet.py).  The Python functions are shallowly embedded as
executable Lean definitions: dataframes are column lists plus row lists,
the database is a table value with unique indexes and standard Postgres
semantics for ON CONFLICT DO NOTHING (NULLs in a unique index never
conflict), and the content hash is a full SHA-256 over the canonical
JSON serialization produced by json.dumps with sorted keys.
External collaborators (the pandas timestamp parser, the network
clients) are modelled as explicit parameters or boolean outcomes.
-/

namespace GSheetETL

/-! ### Cell values

Scalar values as they live in the in-memory dataframe: text, integers,
missing data (covers NaN and NaT, both of which satisfy pd.isna), and
parsed timestamps. -/

inductive Value where
  | str (s : String)
  | int (n : Int)
  | na
  | ts (t : Nat)
deriving DecidableEq, Repr

/-- Stand-in for Python str() applied to a pandas Timestamp.  The exact
rendering does not matter for any claim; it only needs to be a fixed
deterministic function of the parsed instant. -/
def tsRender (t : Nat) : String := toString t

/-- Python str(v) for a scalar cell value. -/
def pyStr : Value → String
  | Value.str s => s
  | Value.int n => toString n
  | Value.na => ""
  | Value.ts t => tsRender t

/-- The normalization used by row_to_hash: empty string if pd.isna(v)
holds, otherwise str(v). -/
def normStr : Value → String
  | Value.na => ""
  | v => pyStr v

/-! ### Canonical JSON blob

Models json.dumps(payload, sort_keys=True, ensure_ascii=False) where
payload is a Python dict from column name to normalized string value.
The dict is built by insertion with replacement on duplicate keys, and
serialization sorts the items by key (code-point lexicographic order,
as Python compares strings). -/

/-- Python dict insertion: replace the value in place if the key is
present, otherwise append the pair. -/
def dictInsert (acc : List (String × String)) (kv : String × String) :
    List (String × String) :=
  if acc.any (fun p => p.1 == kv.1) then
    acc.map (fun p => if p.1 == kv.1 then (p.1, kv.2) else p)
  else acc ++ [kv]

/-- Build the payload dict from the association pairs of a row. -/
def dictOfPairs (l : List (String × String)) : List (String × String) :=
  l.foldl dictInsert []

/-- Code-point lexicographic comparison of character lists, matching how
Python orders strings for sort_keys=True. -/
def charListLe : List Char → List Char → Bool
  | [], _ => true
  | _ :: _, [] => false
  | a :: as, b :: bs =>
    if a.toNat < b.toNat then true
    else if b.toNat < a.toNat then false
    else charListLe as bs

/-- Key order on dict items (compare the keys only). -/
def keyLe (a b : String × String) : Prop := charListLe a.1.data b.1.data = true

instance : DecidableRel keyLe := fun a b => Bool.decEq _ _

def hexChar (n : Nat) : Char := "0123456789abcdef".data.getD n '0'

/-- Escaping performed by json.dumps with ensure_ascii=False: quote and
backslash get a backslash escape, control characters below 0x20 get the
usual named escapes or a u-escape, everything else passes through. -/
def jsonEscChar (c : Char) : List Char :=
  if c = '"' then ['\\', '"']
  else if c = '\\' then ['\\', '\\']
  else if 32 ≤ c.toNat then [c]
  else if c.toNat = 8 then ['\\', 'b']
  else if c.toNat = 9 then ['\\', 't']
  else if c.toNat = 10 then ['\\', 'n']
  else if c.toNat = 12 then ['\\', 'f']
  else if c.toNat = 13 then ['\\', 'r']
  else ['\\', 'u', '0', '0', hexChar (c.toNat / 16), hexChar (c.toNat % 16)]

def jsonEscape (s : String) : String := String.mk (s.data.flatMap jsonEscChar)

/-- One serialized dict item, in the default json.dumps item format. -/
def jsonItem (kv : String × String) : String :=
  "\"" ++ jsonEscape kv.1 ++ "\": \"" ++ jsonEscape kv.2 ++ "\""

def joinComma : List String → String
  | [] => ""
  | [x] => x
  | x :: xs => x ++ ", " ++ joinComma xs

/-- Serialize the sorted items as a JSON object. -/
def jsonBlob (items : List (String × String)) : String :=
  "\x7b" ++ joinComma (items.map jsonItem) ++ "\x7d"

/-! ### SHA-256 over the UTF-8 bytes of the blob -/

def utf8Bytes (c : Nat) : List Nat :=
  if c < 128 then [c]
  else if c < 2048 then [192 + c / 64, 128 + c % 64]
  else if c < 65536 then [224 + c / 4096, 128 + (c / 64) % 64, 128 + c % 64]
  else [240 + c / 262144, 128 + (c / 4096) % 64, 128 + (c / 64) % 64, 128 + c % 64]

def strBytes (s : String) : List Nat := s.data.flatMap (fun ch => utf8Bytes ch.toNat)

def rotr (n x : Nat) : Nat := ((x >>> n) ||| (x <<< (32 - n))) % 4294967296
def add32 (x y : Nat) : Nat := (x + y) % 4294967296

def shaK : List Nat :=
  [1116352408, 1899447441, 3049323471, 3921009573, 961987163, 1508970993,
   2453635748, 2870763221, 3624381080, 310598401, 607225278, 1426881987,
   1925078388, 2162078206, 2614888103, 3248222580, 3835390401, 4022224774,
   264347078, 604807628, 770255983, 1249150122, 1555081692, 1996064986,
   2554220882, 2821834349, 2952996808, 3210313671, 3336571891, 3584528711,
   113926993, 338241895, 666307205, 773529912, 1294757372, 1396182291,
   1695183700, 1986661051, 2177026350, 2456956037, 2730485921, 2820302411,
   3259730800, 3345764771, 3516065817, 3600352804, 4094571909, 275423344,
   430227734, 506948616, 659060556, 883997877, 958139571, 1322822218,
   1537002063, 1747873779, 1955562222, 2024104815, 2227730452, 2361852424,
   2428436474, 2756734187, 3204031479, 3329325298]

def shaH0 : List Nat :=
  [1779033703, 3144134277, 1013904242, 2773480762, 1359893119, 2600822924,
   528734635, 1541459225]

def padMsg (msg : List Nat) : List Nat :=
  let len := msg.length
  let zeros := (64 - (len + 9) % 64) % 64
  msg ++ [128] ++ List.replicate zeros 0 ++
    [(len * 8) >>> 56 % 256, (len * 8) >>> 48 % 256, (len * 8) >>> 40 % 256, (len * 8) >>> 32 % 256,
     (len * 8) >>> 24 % 256, (len * 8) >>> 16 % 256, (len * 8) >>> 8 % 256, (len * 8) % 256]

def bytesToWords : List Nat → List Nat
  | a :: b :: c :: d :: rest => (a * 16777216 + b * 65536 + c * 256 + d) :: bytesToWords rest
  | _ => []

def smallSigma0 (x : Nat) : Nat := Nat.xor (Nat.xor (rotr 7 x) (rotr 18 x)) (x >>> 3)
def smallSigma1 (x : Nat) : Nat := Nat.xor (Nat.xor (rotr 17 x) (rotr 19 x)) (x >>> 10)
def bigSigma0 (x : Nat) : Nat := Nat.xor (Nat.xor (rotr 2 x) (rotr 13 x)) (rotr 22 x)
def bigSigma1 (x : Nat) : Nat := Nat.xor (Nat.xor (rotr 6 x) (rotr 11 x)) (rotr 25 x)

def extendW (ws : List Nat) : Nat → List Nat
  | 0 => ws
  | k + 1 =>
    let n := ws.length
    let w := add32 (add32 (smallSigma1 (ws.getD (n - 2) 0)) (ws.getD (n - 7) 0))
                   (add32 (smallSigma0 (ws.getD (n - 15) 0)) (ws.getD (n - 16) 0))
    extendW (ws ++ [w]) k

def shaRound (st : List Nat) (kw : Nat × Nat) : List Nat :=
  match st with
  | [a, b, c, d, e, f, g, h] =>
    let ch := Nat.xor (Nat.land e f) (Nat.land (4294967295 - e) g)
    let maj := Nat.xor (Nat.xor (Nat.land a b) (Nat.land a c)) (Nat.land b c)
    let t1 := add32 (add32 (add32 h (bigSigma1 e)) (add32 ch kw.1)) kw.2
    let t2 := add32 (bigSigma0 a) maj
    [add32 t1 t2, a, b, c, add32 d t1, e, f, g]
  | _ => st

def processBlock (h : List Nat) (block : List Nat) : List Nat :=
  let ws := extendW (bytesToWords block) 48
  let st := (shaK.zip ws).foldl shaRound h
  (h.zip st).map (fun p => add32 p.1 p.2)

def toBlocksFuel : Nat → List Nat → List (List Nat)
  | 0, _ => []
  | _, [] => []
  | fuel + 1, l => l.take 64 :: toBlocksFuel fuel (l.drop 64)

def toBlocks (l : List Nat) : List (List Nat) := toBlocksFuel (l.length + 1) l

def wordToHex (w : Nat) : List Char :=
  [hexChar (w / 268435456 % 16), hexChar (w / 16777216 % 16), hexChar (w / 1048576 % 16),
   hexChar (w / 65536 % 16), hexChar (w / 4096 % 16), hexChar (w / 256 % 16),
   hexChar (w / 16 % 16), hexChar (w % 16)]

/-- SHA-256 hex digest of a byte sequence (hashlib.sha256(blob).hexdigest()). -/
def sha256Hex (msg : List Nat) : String :=
  let blocks := toBlocks (padMsg msg)
  let hfin := blocks.foldl processBlock shaH0
  String.mk (hfin.flatMap wordToHex)

/-- FIPS 180-4 test vector, checking the SHA-256 embedding. -/
example : sha256Hex (strBytes "abc") =
    "ba7816bf8f01cfea414140de5dae2223b00361a396177a9cb410ff61f20015ad" := by decide

/-! ### row_to_hash and ensure_row_hash -/

/-- The payload dict of row_to_hash: column name to normalized string. -/
def rowPayload (row : List (String × Value)) : List (String × String) :=
  dictOfPairs (row.map (fun kv => (kv.1, normStr kv.2)))

/-- Embedding of row_to_hash: dict of normalized values, serialized with
sorted keys, hashed with SHA-256. -/
def row_to_hash (row : List (String × Value)) : String :=
  sha256Hex (strBytes (jsonBlob (List.insertionSort keyLe (rowPayload row))))

/-- In-memory dataframe: column labels plus rows of cell values. -/
structure DataFrame where
  cols : List String
  rows : List (List Value)
deriving DecidableEq, Repr

/-- pandas df.empty: true when either axis has length zero. -/
def DataFrame.empty (df : DataFrame) : Bool := df.rows.isEmpty || df.cols.isEmpty

/-- Embedding of ensure_row_hash: return the frame unchanged when the
column is present, otherwise append a _row_hash column computed from the
whole row content. -/
def ensure_row_hash (df : DataFrame) : DataFrame :=
  if "_row_hash" ∈ df.cols then df
  else
    { cols := df.cols ++ ["_row_hash"],
      rows := df.rows.map (fun r => r ++ [Value.str (row_to_hash (df.cols.zip r))]) }

/-! ### coerce_timestamps

pd.to_datetime(col, errors="coerce") is an external library call; it is
modelled by an arbitrary parser argument.  A parsed value becomes a
timestamp cell, an unparseable one becomes NaT (missing). -/

/-- Result of pd.to_datetime(v, errors="coerce") on one cell. -/
def parseVal (parse : Value → Option Nat) (v : Value) : Value :=
  match parse v with
  | some t => Value.ts t
  | none => Value.na

/-- The exact candidate names the script checks, case-sensitively. -/
def coerceCands : List String :=
  ["Submitted At", "submitted at", "submitted_at", "Timestamp", "timestamp", "created_at"]

/-- Apply the parser to every cell of one named column, if present. -/
def coerceCol (parse : Value → Option Nat) (cand : String) (df : DataFrame) : DataFrame :=
  if cand ∈ df.cols then
    { df with rows := df.rows.map (fun r =>
        (df.cols.zip r).map (fun cv => if cv.1 = cand then parseVal parse cv.2 else cv.2)) }
  else df

/-- Embedding of coerce_timestamps: the candidates are processed in
order, mutating the frame. -/
def coerce_timestamps (parse : Value → Option Nat) (df : DataFrame) : DataFrame :=
  coerceCands.foldl (fun d c => coerceCol parse c d) df

/-- The normalized batch handed to the database by insert_new_rows:
timestamps coerced, then the hash column ensured. -/
def normBatch (parse : Value → Option Nat) (df : DataFrame) : DataFrame :=
  ensure_row_hash (coerce_timestamps parse df)

/-! ### Table schema manager -/

inductive ColType where
  | timestamp
  | text
deriving DecidableEq, Repr

/-- The timestamp aliases of create_table_if_not_exists, matched against
the lowercased column name. -/
def tsAliases : List String := ["submitted at", "submitted_at", "timestamp", "created_at"]

/-- ASCII lowercasing, as str.lower() acts on these column names. -/
def lowerChar (c : Char) : Char :=
  if 65 ≤ c.toNat ∧ c.toNat ≤ 90 then Char.ofNat (c.toNat + 32) else c

def lowerStr (s : String) : String := String.mk (s.data.map lowerChar)

/-- The batch columns other than the literal name _row_hash. -/
def existingCols (df : DataFrame) : List String := df.cols.filter (fun c => c ≠ "_row_hash")

/-- Column declaration: TIMESTAMP for the aliases, TEXT otherwise. -/
def colSpec (c : String) : String × ColType :=
  if lowerStr c ∈ tsAliases then (c, ColType.timestamp) else (c, ColType.text)

/-- The column declarations issued by create_table_if_not_exists: the
batch columns in order, then the synthetic _row_hash column as TEXT. -/
def buildSchema (df : DataFrame) : List (String × ColType) :=
  (existingCols df).map colSpec ++ [("_row_hash", ColType.text)]

/-! ### Database model

One destination table: declared columns, the columns carrying a unique
index, and the stored rows.  Stored rows are association lists from
column name to an SQL value.  Postgres unique indexes treat NULLs as
distinct, and ON CONFLICT DO NOTHING skips a row exactly when its value
in the conflict-target column non-trivially collides with a stored row;
a collision on any other unique index raises an error. -/

inductive DBVal where
  | null
  | str (s : String)
  | int (n : Int)
  | ts (t : Nat)
deriving DecidableEq, Repr

inductive DBError where
  | uniqueViolation
  | undefinedColumn
  | duplicateColumn
deriving DecidableEq, Repr

inductive DBOp where
  | createTable
  | createIndex (col : String)
  | insertVals (n : Nat)
  | commit
  | rollback
deriving DecidableEq, Repr

structure Table where
  schema : List (String × ColType)
  indexes : List String
  rows : List (List (String × DBVal))
deriving DecidableEq, Repr

/-- Conversion of one cell for execute_values: None when pd.isna(x)
holds or when x equals the string "NaT". -/
def toDBVal : Value → DBVal
  | Value.na => DBVal.null
  | Value.str s => if s = "NaT" then DBVal.null else DBVal.str s
  | Value.int n => DBVal.int n
  | Value.ts t => DBVal.ts t

/-- One value tuple of the bulk insert, tagged with the insert columns. -/
def rowTuple (cols : List String) (r : List Value) : List (String × DBVal) :=
  cols.zip (r.map toDBVal)

/-- The value a stored row or tuple carries in a named column (NULL when
the column is absent from the tuple). -/
def tupleVal (t : List (String × DBVal)) (c : String) : DBVal :=
  ((t.find? (fun p => p.1 == c)).map Prod.snd).getD DBVal.null

/-- CREATE UNIQUE INDEX IF NOT EXISTS on one column: a no-op when the
index exists, an undefined-column error when the column does not. -/
def addIndex (t : Table) (col : String) : Except DBError Table :=
  if col ∈ t.indexes then Except.ok t
  else if col ∈ t.schema.map Prod.fst then
    Except.ok { t with indexes := t.indexes ++ [col] }
  else Except.error DBError.undefinedColumn

/-- Embedding of create_table_if_not_exists: CREATE TABLE IF NOT EXISTS
with the inferred schema, a unique index on the literal column "cdn"
when some batch column lowercases to cdn, and always a unique index on
_row_hash.  Returns the DDL operations performed and the table or the
first error. -/
def create_table_if_not_exists (st : Option Table) (df : DataFrame) :
    List DBOp × Except DBError Table :=
  let base : Except DBError Table :=
    match st with
    | some t => Except.ok t
    | none =>
      if ((buildSchema df).map Prod.fst).Nodup then
        Except.ok { schema := buildSchema df, indexes := [], rows := [] }
      else Except.error DBError.duplicateColumn
  match base with
  | Except.error e => ([DBOp.createTable], Except.error e)
  | Except.ok t0 =>
    if "cdn" ∈ (existingCols df).map lowerStr then
      match addIndex t0 "cdn" with
      | Except.error e => ([DBOp.createTable], Except.error e)
      | Except.ok t1 =>
        match addIndex t1 "_row_hash" with
        | Except.error e => ([DBOp.createTable, DBOp.createIndex "cdn"], Except.error e)
        | Except.ok t2 =>
          ([DBOp.createTable, DBOp.createIndex "cdn", DBOp.createIndex "_row_hash"], Except.ok t2)
    else
      match addIndex t0 "_row_hash" with
      | Except.error e => ([DBOp.createTable], Except.error e)
      | Except.ok t1 => ([DBOp.createTable, DBOp.createIndex "_row_hash"], Except.ok t1)

/-- The conflict target chosen by insert_new_rows, from the full insert
column list (hash column included). -/
def conflictTargetOf (cols : List String) : String :=
  if "cdn" ∈ cols.map lowerStr then "cdn" else "_row_hash"

/-- Insert one tuple under ON CONFLICT (target) DO NOTHING: skip the
tuple when its non-null target value matches a stored row; otherwise the
insert must satisfy every other unique index (NULLs never collide), or
the whole statement errors. -/
def insertOne (idxs : List String) (target : String)
    (stored : List (List (String × DBVal))) (t : List (String × DBVal)) :
    Except DBError (List (List (String × DBVal))) :=
  if tupleVal t target ≠ DBVal.null ∧ ∃ r ∈ stored, tupleVal r target = tupleVal t target then
    Except.ok stored
  else if ∃ i ∈ idxs, i ≠ target ∧ tupleVal t i ≠ DBVal.null ∧
      ∃ r ∈ stored, tupleVal r i = tupleVal t i then
    Except.error DBError.uniqueViolation
  else Except.ok (stored ++ [t])

/-- execute_values: the tuples are inserted sequentially; the first
error aborts the statement. -/
def execValues (idxs : List String) (target : String)
    (stored : List (List (String × DBVal))) :
    List (List (String × DBVal)) → Except DBError (List (List (String × DBVal)))
  | [] => Except.ok stored
  | t :: ts =>
    match insertOne idxs target stored t with
    | Except.error e => Except.error e
    | Except.ok stored2 => execValues idxs target stored2 ts

/-- The value tuples insert_new_rows sends to execute_values. -/
def batchTuples (parse : Value → Option Nat) (df : DataFrame) :
    List (List (String × DBVal)) :=
  (normBatch parse df).rows.map (rowTuple (normBatch parse df).cols)

/-- Result of one insert_new_rows call: the table state visible after
the call (the original state when the transaction rolled back or never
changed anything), the database operations performed, and the error
surfaced to the caller, if any. -/
structure InsertOutcome where
  state : Option Table
  trace : List DBOp
  err : Option DBError
deriving DecidableEq, Repr

/-- Embedding of insert_new_rows.  An empty frame returns immediately
with no database operation.  Otherwise the batch is normalized, the
table ensured (a DDL error propagates without rollback, and since
nothing was committed the visible state is unchanged), and the bulk
insert committed on success or rolled back, with the error re-raised,
on failure.  Postgres DDL is transactional, so the rollback also undoes
the table creation: the state reverts to the initial one. -/
def insert_new_rows (parse : Value → Option Nat) (st : Option Table) (df : DataFrame) :
    InsertOutcome :=
  if df.empty then ⟨st, [], none⟩
  else
    match (create_table_if_not_exists st (normBatch parse df)).2 with
    | Except.error e => ⟨st, (create_table_if_not_exists st (normBatch parse df)).1, some e⟩
    | Except.ok tbl =>
      match execValues tbl.indexes (conflictTargetOf (normBatch parse df).cols) tbl.rows
          (batchTuples parse df) with
      | Except.ok rows2 =>
        ⟨some { tbl with rows := rows2 },
         (create_table_if_not_exists st (normBatch parse df)).1 ++
           [DBOp.insertVals (batchTuples parse df).length, DBOp.commit], none⟩
      | Except.error e =>
        ⟨st, (create_table_if_not_exists st (normBatch parse df)).1 ++
           [DBOp.insertVals (batchTuples parse df).length, DBOp.rollback], some e⟩

/-! ### The main loop and whole-script run

The network collaborators are modelled by precomputed outcomes: whether
each connection succeeds, whether each spreadsheet opens, and what each
worksheet fetch returns. -/

inductive FetchOutcome where
  | fails
  | ok (df : DataFrame)
deriving DecidableEq, Repr

structure SheetCfg where
  wsName : String
  tableName : String
  fetch : FetchOutcome
deriving DecidableEq, Repr

structure GroupCfg where
  fileName : String
  openOk : Bool
  sheets : List SheetCfg
deriving DecidableEq, Repr

inductive Event where
  | dbConnect
  | gsheetAuth
  | configLoad
  | fileOpened (f : String)
  | fileError (f : String)
  | sheetAttempt (ws : String)
  | sheetError (ws : String)
  | sheetEmpty (ws : String)
  | sheetDone (ws : String)
  | dbOp (op : DBOp)
  | connClosed
deriving DecidableEq, Repr

/-- The database: destination tables by name. -/
abbrev DB := List (String × Table)

def dbGet (db : DB) (name : String) : Option Table :=
  ((db.find? (fun p => p.1 == name)).map Prod.snd)

def dbSet (db : DB) (name : String) (t : Table) : DB :=
  if db.any (fun p => p.1 == name) then
    db.map (fun p => if p.1 == name then (name, t) else p)
  else db ++ [(name, t)]

/-- One worksheet iteration of main: a fetch failure or an insert error
is caught by the per-sheet handler and logged; an empty frame is skipped
before insert_new_rows is invoked. -/
def processSheet (parse : Value → Option Nat) (db : DB) (s : SheetCfg) : DB × List Event :=
  match s.fetch with
  | FetchOutcome.fails => (db, [Event.sheetAttempt s.wsName, Event.sheetError s.wsName])
  | FetchOutcome.ok df =>
    if df.empty then (db, [Event.sheetAttempt s.wsName, Event.sheetEmpty s.wsName])
    else
      let out := insert_new_rows parse (dbGet db s.tableName) df
      match out.err with
      | some _ =>
        (db, Event.sheetAttempt s.wsName :: out.trace.map Event.dbOp ++ [Event.sheetError s.wsName])
      | none =>
        match out.state with
        | some t =>
          (dbSet db s.tableName t,
           Event.sheetAttempt s.wsName :: out.trace.map Event.dbOp ++ [Event.sheetDone s.wsName])
        | none =>
          (db, Event.sheetAttempt s.wsName :: out.trace.map Event.dbOp ++ [Event.sheetDone s.wsName])

def processSheets (parse : Value → Option Nat) (db : DB) :
    List SheetCfg → DB × List Event
  | [] => (db, [])
  | s :: rest =>
    let r1 := processSheet parse db s
    let r2 := processSheets parse r1.1 rest
    (r2.1, r1.2 ++ r2.2)

/-- One group iteration of main: a spreadsheet that cannot be opened is
logged and the whole group skipped. -/
def processGroup (parse : Value → Option Nat) (db : DB) (g : GroupCfg) : DB × List Event :=
  if g.openOk then
    let r := processSheets parse db g.sheets
    (r.1, Event.fileOpened g.fileName :: r.2)
  else (db, [Event.fileError g.fileName])

def processGroups (parse : Value → Option Nat) (db : DB) :
    List GroupCfg → DB × List Event
  | [] => (db, [])
  | g :: rest =>
    let r1 := processGroup parse db g
    let r2 := processGroups parse r1.1 rest
    (r2.1, r1.2 ++ r2.2)

inductive FatalError where
  | envMissing
  | dbConnectFailed
  | gsheetFailed
  | configUnreadable
deriving DecidableEq, Repr

/-- Inputs of one whole run: the environment, the outcome of each
external connection, whether config.json is readable, and the groups it
describes. -/
structure RunCfg where
  env : String → Option String
  dbConnectOk : Bool
  gsheetOk : Bool
  configReadable : Bool
  groups : List GroupCfg
  parse : Value → Option Nat

def requiredEnvVars : List String :=
  ["POSTGRES_HOST", "POSTGRES_DB", "POSTGRES_USER", "POSTGRES_PASSWORD", "POSTGRES_PORT"]

/-- The required variables that are unset or empty (os.getenv falsy). -/
def missingEnv (env : String → Option String) : List String :=
  requiredEnvVars.filter (fun k =>
    match env k with
    | none => true
    | some s => s == "")

structure RunResult where
  db : DB
  events : List Event
  fatal : Option FatalError
deriving Repr

/-- The body of main: connect to Postgres, connect to the spreadsheet
service, read config.json, then iterate the groups; the connection is
closed in the finally block whenever it was opened. -/
def mainRun (cfg : RunCfg) : RunResult :=
  if cfg.dbConnectOk = false then ⟨[], [], some FatalError.dbConnectFailed⟩
  else if cfg.gsheetOk = false then
    ⟨[], [Event.dbConnect, Event.connClosed], some FatalError.gsheetFailed⟩
  else if cfg.configReadable = false then
    ⟨[], [Event.dbConnect, Event.gsheetAuth, Event.connClosed], some FatalError.configUnreadable⟩
  else
    let r := processGroups cfg.parse [] cfg.groups
    ⟨r.1, Event.dbConnect :: Event.gsheetAuth :: Event.configLoad :: r.2 ++ [Event.connClosed], none⟩

/-- The whole script: the module-level check of the required environment
variables runs before main, so a missing variable aborts with no event
at all. -/
def scriptRun (cfg : RunCfg) : RunResult :=
  if missingEnv cfg.env ≠ [] then ⟨[], [], some FatalError.envMissing⟩
  else mainRun cfg

/-- The worksheets main attempted, in order, read off the event list. -/
def attemptedSheets (evs : List Event) : List String :=
  evs.filterMap (fun e =>
    match e with
    | Event.sheetAttempt w => some w
    | _ => none)

/-! ### Helper definitions and lemmas -/

deriving instance DecidableEq for Except

/-- A parser that accepts nothing; used to instantiate the abstract
pd.to_datetime collaborator on concrete inputs. -/
def noParse : Value → Option Nat := fun _ => none

theorem colSpec_fst (c : String) : (colSpec c).1 = c := by
  simp only [colSpec]
  split <;> rfl

theorem buildSchema_names (df : DataFrame) :
    (buildSchema df).map Prod.fst = existingCols df ++ ["_row_hash"] := by
  simp only [buildSchema, List.map_append, List.map_map, List.map_cons, List.map_nil]
  congr 1
  simp [Function.comp_def, colSpec_fst]

theorem lowerStr_row_hash_ne_cdn : lowerStr "_row_hash" ≠ "cdn" := by decide

theorem cdn_mem_lowered_iff (df : DataFrame) :
    ("cdn" ∈ df.cols.map lowerStr) ↔ ("cdn" ∈ (existingCols df).map lowerStr) := by
  simp only [List.mem_map, existingCols, List.mem_filter]
  constructor
  · rintro ⟨c, hc, hl⟩
    refine ⟨c, ⟨hc, ?_⟩, hl⟩
    simp only [decide_eq_true_eq]
    rintro rfl
    exact lowerStr_row_hash_ne_cdn hl
  · rintro ⟨c, ⟨hc, _⟩, hl⟩
    exact ⟨c, hc, hl⟩

/-! ### C9: ensure_row_hash is idempotent -/

/-- C9: if the dataframe already has a _row_hash column it is returned
unchanged, and applying ensure_row_hash twice equals applying it once. -/
theorem ensure_row_hash_idempotent :
    (∀ df : DataFrame, "_row_hash" ∈ df.cols → ensure_row_hash df = df) ∧
    (∀ df : DataFrame, ensure_row_hash (ensure_row_hash df) = ensure_row_hash df) := by
  constructor
  · intro df h
    simp [ensure_row_hash, h]
  · intro df
    by_cases h : "_row_hash" ∈ df.cols
    · simp [ensure_row_hash, h]
    · have h2 : "_row_hash" ∈ (ensure_row_hash df).cols := by
        simp [ensure_row_hash, h]
      rw [ensure_row_hash, if_pos h2]

/-- Witness for C9 at concrete frames. -/
theorem ensure_row_hash_idempotent_witness :
    ensure_row_hash ⟨["a", "_row_hash"], []⟩ = ⟨["a", "_row_hash"], []⟩ ∧
    ensure_row_hash (ensure_row_hash ⟨["a"], []⟩) = ensure_row_hash ⟨["a"], []⟩ :=
  ⟨ensure_row_hash_idempotent.1 ⟨["a", "_row_hash"], []⟩ (by decide),
   ensure_row_hash_idempotent.2 ⟨["a"], []⟩⟩

/-! ### C10: empty batches perform no database operation -/

/-- C10: an empty batch makes insert_new_rows return at once with no
database operation and the state unchanged, and the main loop skips an
empty worksheet before invoking the upsert engine. -/
theorem empty_batch_no_db_ops :
    (∀ (parse : Value → Option Nat) (st : Option Table) (df : DataFrame),
        df.empty = true → insert_new_rows parse st df = ⟨st, [], none⟩) ∧
    (∀ (parse : Value → Option Nat) (db : DB) (s : SheetCfg) (df : DataFrame),
        s.fetch = FetchOutcome.ok df → df.empty = true →
        processSheet parse db s = (db, [Event.sheetAttempt s.wsName, Event.sheetEmpty s.wsName])) := by
  constructor
  · intro parse st df h
    simp [insert_new_rows, h]
  · intro parse db s df hf h
    simp [processSheet, hf, h]

/-- Witness for C10 at a concrete empty frame. -/
theorem empty_batch_no_db_ops_witness :
    insert_new_rows noParse none ⟨["a"], []⟩ = ⟨none, [], none⟩ ∧
    processSheet noParse [] ⟨"w", "t", FetchOutcome.ok ⟨["a"], []⟩⟩ =
      ([], [Event.sheetAttempt "w", Event.sheetEmpty "w"]) :=
  ⟨empty_batch_no_db_ops.1 noParse none ⟨["a"], []⟩ (by decide),
   empty_batch_no_db_ops.2 noParse [] ⟨"w", "t", FetchOutcome.ok ⟨["a"], []⟩⟩ ⟨["a"], []⟩ rfl
     (by decide)⟩

/-! ### C4: column type inference -/

/-- C4: the schema declares a column TIMESTAMP exactly when its name
lowercases to one of the fixed aliases; every other column, and always
the synthetic _row_hash column, is TEXT. -/
theorem schema_timestamp_iff (df : DataFrame) :
    ("_row_hash", ColType.text) ∈ buildSchema df ∧
    ∀ p ∈ buildSchema df, (p.2 = ColType.timestamp ↔ lowerStr p.1 ∈ tsAliases) := by
  constructor
  · simp [buildSchema]
  · intro p hp
    rcases List.mem_append.mp hp with h | h
    · rcases List.mem_map.mp h with ⟨c, _, rfl⟩
      by_cases ha : lowerStr c ∈ tsAliases
      · simp [colSpec, ha]
      · simp [colSpec, ha]
    · simp only [List.mem_singleton] at h
      subst h
      constructor
      · intro h; exact absurd h (by decide)
      · intro h; exact absurd h (by decide)

/-- Witness for C4 on a concrete batch. -/
theorem schema_timestamp_iff_witness :
    ("_row_hash", ColType.text) ∈ buildSchema ⟨["created_at", "name"], []⟩ ∧
    (ColType.text = ColType.timestamp ↔ lowerStr "name" ∈ tsAliases) :=
  ⟨(schema_timestamp_iff ⟨["created_at", "name"], []⟩).1,
   (schema_timestamp_iff ⟨["created_at", "name"], []⟩).2 ("name", ColType.text) (by decide)⟩

/-! ### C8: configuration errors versus I/O ordering

The module-level check of the environment variables does abort before
any I/O, but config.json is only opened inside main, after both the
Postgres connection and the spreadsheet authentication: an unreadable
configuration document does not abort before I/O. -/

/-- C8 counterexample: with the environment complete and both
connections succeeding but config.json unreadable, the run fails with
the configuration error although a database connection (an I/O action)
has already happened. -/
theorem config_read_after_connections :
    (scriptRun ⟨fun _ => some "x", true, true, false,
        [⟨"f", true, [⟨"w", "t", FetchOutcome.fails⟩]⟩], noParse⟩).fatal =
      some FatalError.configUnreadable ∧
    Event.dbConnect ∈ (scriptRun ⟨fun _ => some "x", true, true, false,
        [⟨"f", true, [⟨"w", "t", FetchOutcome.fails⟩]⟩], noParse⟩).events := by
  constructor
  · rfl
  · decide

/-- C8 amended: a missing required environment variable aborts the run
before any I/O event at all; an unreadable configuration document still
aborts the run fatally, but only after the database connection and the
spreadsheet authentication, and before any worksheet fetch or insert
(the database is left untouched). -/
theorem env_check_before_io_config_after_connections (cfg : RunCfg) :
    (missingEnv cfg.env ≠ [] → scriptRun cfg = ⟨[], [], some FatalError.envMissing⟩) ∧
    (missingEnv cfg.env = [] → cfg.dbConnectOk = true → cfg.gsheetOk = true →
      cfg.configReadable = false →
      scriptRun cfg = ⟨[], [Event.dbConnect, Event.gsheetAuth, Event.connClosed],
        some FatalError.configUnreadable⟩) := by
  constructor
  · intro h
    simp [scriptRun, h]
  · intro h1 h2 h3 h4
    simp [scriptRun, h1, mainRun, h2, h3, h4]

/-- Witness for the amended C8 at a concrete environment with an unset
required variable. -/
theorem env_check_before_io_witness :
    missingEnv (fun _ => none) ≠ [] ∧
    scriptRun ⟨fun _ => none, true, true, true, [], noParse⟩ =
      ⟨[], [], some FatalError.envMissing⟩ :=
  ⟨by decide,
   (env_check_before_io_config_after_connections
     ⟨fun _ => none, true, true, true, [], noParse⟩).1 (by decide)⟩

/-! ### C3: natural-key constraint and conflict target

The membership test lowercases the batch columns, but the DDL and the
conflict target always name the literal lowercase column "cdn".  A batch
whose natural-key column is a case variant such as "CDN" therefore does
not get a uniqueness constraint on its column: index creation references
the nonexistent column "cdn" and fails. -/

/-- C3 counterexample: for a batch with natural-key column "CDN"
(matching cdn case-insensitively), schema creation errors instead of
creating a uniqueness constraint on that column, and the conflict target
the insert would use is the literal name "cdn", not the batch column. -/
theorem cdn_case_variant_fails_schema :
    (create_table_if_not_exists none ⟨["CDN", "v", "_row_hash"], []⟩).2 =
      Except.error DBError.undefinedColumn ∧
    conflictTargetOf ["CDN", "v", "_row_hash"] = "cdn" := by
  constructor
  · rfl
  · rfl

/-- C3 amended: whenever the lowered-name test for cdn succeeds only via
the literal column "cdn" (hc), schema creation succeeds; it creates a
uniqueness constraint on "cdn" exactly when some batch column lowercases
to cdn, always creates one on _row_hash, and the insert conflict target
is "cdn" in that case and "_row_hash" otherwise — in all cases a column
that carries a uniqueness constraint of the created table. -/
theorem cdn_literal_schema_and_target (df : DataFrame)
    (hnd : ((buildSchema df).map Prod.fst).Nodup)
    (hc : "cdn" ∈ (existingCols df).map lowerStr → "cdn" ∈ existingCols df) :
    ∃ t : Table, (create_table_if_not_exists none df).2 = Except.ok t ∧
      "_row_hash" ∈ t.indexes ∧
      ("cdn" ∈ df.cols.map lowerStr →
        "cdn" ∈ t.indexes ∧ conflictTargetOf df.cols = "cdn") ∧
      ("cdn" ∉ df.cols.map lowerStr → conflictTargetOf df.cols = "_row_hash") ∧
      conflictTargetOf df.cols ∈ t.indexes := by
  have hnames : (buildSchema df).map Prod.fst = existingCols df ++ ["_row_hash"] :=
    buildSchema_names df
  by_cases hm : "cdn" ∈ (existingCols df).map lowerStr
  · have hcdn : "cdn" ∈ (buildSchema df).map Prod.fst := by
      rw [hnames]
      exact List.mem_append_left _ (hc hm)
    have hrh : "_row_hash" ∈ (buildSchema df).map Prod.fst := by
      rw [hnames]
      exact List.mem_append_right _ (List.mem_singleton.mpr rfl)
    refine ⟨{ schema := buildSchema df, indexes := ["cdn", "_row_hash"], rows := [] }, ?_, ?_, ?_, ?_, ?_⟩
    · simp only [create_table_if_not_exists, hnd, if_pos, hm, if_true, addIndex]
      simp [hcdn, hrh]
    · simp
    · intro _
      refine ⟨by simp, ?_⟩
      simp only [conflictTargetOf, if_pos ((cdn_mem_lowered_iff df).mpr hm)]
    · intro hn
      exact absurd ((cdn_mem_lowered_iff df).mpr hm) hn
    · simp only [conflictTargetOf, if_pos ((cdn_mem_lowered_iff df).mpr hm)]
      simp
  · have hrh : "_row_hash" ∈ (buildSchema df).map Prod.fst := by
      rw [hnames]
      exact List.mem_append_right _ (List.mem_singleton.mpr rfl)
    refine ⟨{ schema := buildSchema df, indexes := ["_row_hash"], rows := [] }, ?_, ?_, ?_, ?_, ?_⟩
    · simp only [create_table_if_not_exists, hnd, if_pos, hm, if_false, addIndex]
      simp [hm, hrh]
    · simp
    · intro hyes
      exact absurd ((cdn_mem_lowered_iff df).mp hyes) hm
    · intro _
      simp only [conflictTargetOf]
      rw [if_neg]
      intro hyes
      exact hm ((cdn_mem_lowered_iff df).mp hyes)
    · have : conflictTargetOf df.cols = "_row_hash" := by
        simp only [conflictTargetOf]
        rw [if_neg]
        intro hyes
        exact hm ((cdn_mem_lowered_iff df).mp hyes)
      rw [this]
      simp

/-- Witness for the amended C3 on a concrete batch with a literal cdn
column. -/
theorem cdn_literal_schema_and_target_witness :
    ∃ t : Table,
      (create_table_if_not_exists none ⟨["cdn", "v", "_row_hash"], []⟩).2 = Except.ok t ∧
      "_row_hash" ∈ t.indexes ∧
      ("cdn" ∈ (DataFrame.cols ⟨["cdn", "v", "_row_hash"], []⟩).map lowerStr →
        "cdn" ∈ t.indexes ∧ conflictTargetOf ["cdn", "v", "_row_hash"] = "cdn") ∧
      ("cdn" ∉ (DataFrame.cols ⟨["cdn", "v", "_row_hash"], []⟩).map lowerStr →
        conflictTargetOf ["cdn", "v", "_row_hash"] = "_row_hash") ∧
      conflictTargetOf ["cdn", "v", "_row_hash"] ∈ t.indexes :=
  cdn_literal_schema_and_target ⟨["cdn", "v", "_row_hash"], []⟩ (by decide) (by decide)

/-! ### C6: commit on success, rollback and re-raise on insert error -/

theorem insert_new_rows_nonempty (parse : Value → Option Nat) (st : Option Table)
    (df : DataFrame) (hne : df.empty = false) :
    insert_new_rows parse st df =
      match (create_table_if_not_exists st (normBatch parse df)).2 with
      | Except.error e => ⟨st, (create_table_if_not_exists st (normBatch parse df)).1, some e⟩
      | Except.ok tbl =>
        match execValues tbl.indexes (conflictTargetOf (normBatch parse df).cols) tbl.rows
            (batchTuples parse df) with
        | Except.ok rows2 =>
          ⟨some { tbl with rows := rows2 },
           (create_table_if_not_exists st (normBatch parse df)).1 ++
             [DBOp.insertVals (batchTuples parse df).length, DBOp.commit], none⟩
        | Except.error e =>
          ⟨st, (create_table_if_not_exists st (normBatch parse df)).1 ++
             [DBOp.insertVals (batchTuples parse df).length, DBOp.rollback], some e⟩ := by
  simp [insert_new_rows, hne]

/-- C6: for a non-empty batch whose table DDL succeeded, an error of the
bulk insert makes insert_new_rows leave the visible table state at its
original value (rollback) and re-raise that error, while a successful
bulk insert commits the resulting rows. -/
theorem insert_commit_or_rollback (parse : Value → Option Nat) (st : Option Table)
    (df : DataFrame) (hne : df.empty = false) (tbl : Table)
    (hcr : (create_table_if_not_exists st (normBatch parse df)).2 = Except.ok tbl) :
    (∀ e, execValues tbl.indexes (conflictTargetOf (normBatch parse df).cols) tbl.rows
        (batchTuples parse df) = Except.error e →
      (insert_new_rows parse st df).state = st ∧
      (insert_new_rows parse st df).err = some e ∧
      DBOp.rollback ∈ (insert_new_rows parse st df).trace) ∧
    (∀ rows2, execValues tbl.indexes (conflictTargetOf (normBatch parse df).cols) tbl.rows
        (batchTuples parse df) = Except.ok rows2 →
      (insert_new_rows parse st df).state = some { tbl with rows := rows2 } ∧
      (insert_new_rows parse st df).err = none ∧
      DBOp.commit ∈ (insert_new_rows parse st df).trace) := by
  constructor
  · intro e he
    simp only [insert_new_rows_nonempty parse st df hne, hcr, he]
    exact ⟨trivial, trivial, by simp⟩
  · intro rows2 hr
    simp only [insert_new_rows_nonempty parse st df hne, hcr, hr]
    exact ⟨trivial, trivial, by simp⟩

/-- Witness for C6: a batch of two identical rows with a NULL natural
key: the conflict target cdn never fires, the second tuple violates the
_row_hash unique index, and the call rolls back and re-raises. -/
theorem insert_commit_or_rollback_witness :
    (DataFrame.empty ⟨["cdn", "v"], [[Value.na, Value.str "y"], [Value.na, Value.str "y"]]⟩
        = false) ∧
    ((create_table_if_not_exists none
        (normBatch noParse ⟨["cdn", "v"], [[Value.na, Value.str "y"], [Value.na, Value.str "y"]]⟩)).2
      = Except.ok ⟨[("cdn", ColType.text), ("v", ColType.text), ("_row_hash", ColType.text)],
          ["cdn", "_row_hash"], []⟩) ∧
    ((insert_new_rows noParse none
        ⟨["cdn", "v"], [[Value.na, Value.str "y"], [Value.na, Value.str "y"]]⟩).state = none ∧
     (insert_new_rows noParse none
        ⟨["cdn", "v"], [[Value.na, Value.str "y"], [Value.na, Value.str "y"]]⟩).err =
       some DBError.uniqueViolation ∧
     DBOp.rollback ∈ (insert_new_rows noParse none
        ⟨["cdn", "v"], [[Value.na, Value.str "y"], [Value.na, Value.str "y"]]⟩).trace) :=
  ⟨by decide, by decide,
   (insert_commit_or_rollback noParse none
      ⟨["cdn", "v"], [[Value.na, Value.str "y"], [Value.na, Value.str "y"]]⟩ (by decide)
      ⟨[("cdn", ColType.text), ("v", ColType.text), ("_row_hash", ColType.text)],
        ["cdn", "_row_hash"], []⟩ (by decide)).1
     DBError.uniqueViolation (by decide)⟩

/-! ### C7: per-unit errors never abort the run -/

theorem attemptedSheets_append (l1 l2 : List Event) :
    attemptedSheets (l1 ++ l2) = attemptedSheets l1 ++ attemptedSheets l2 := by
  simp [attemptedSheets]

theorem attemptedSheets_dbOps (l : List DBOp) :
    attemptedSheets (l.map Event.dbOp) = [] := by
  induction l with
  | nil => rfl
  | cons x xs ih => simpa [attemptedSheets, List.filterMap_cons] using ih

/-- Prepending any event that is not a worksheet attempt leaves the
attempted-worksheet list unchanged. -/
theorem attemptedSheets_cons_other (e : Event) (l : List Event)
    (h : ∀ w, e ≠ Event.sheetAttempt w) :
    attemptedSheets (e :: l) = attemptedSheets l := by
  cases e <;> simp [attemptedSheets, List.filterMap_cons]
  exact absurd rfl (h _)

/-- Whatever a worksheet's fetch or insert does — error, empty frame, or
success — exactly that worksheet is attempted and control returns. -/
theorem processSheet_attempts (parse : Value → Option Nat) (db : DB) (s : SheetCfg) :
    attemptedSheets (processSheet parse db s).2 = [s.wsName] := by
  rcases s with ⟨w, tn, f⟩
  cases f with
  | fails => simp [processSheet, attemptedSheets]
  | ok df =>
    by_cases he : df.empty
    · simp [processSheet, he, attemptedSheets]
    · simp only [processSheet, he, Bool.false_eq_true, if_false]
      cases (insert_new_rows parse (dbGet db tn) df).err with
      | some e =>
        simp [attemptedSheets, List.filterMap_cons, attemptedSheets_append, attemptedSheets_dbOps]
      | none =>
        cases (insert_new_rows parse (dbGet db tn) df).state with
        | some t =>
          simp [attemptedSheets, List.filterMap_cons, attemptedSheets_append, attemptedSheets_dbOps]
        | none =>
          simp [attemptedSheets, List.filterMap_cons, attemptedSheets_append, attemptedSheets_dbOps]

theorem processSheets_attempts (parse : Value → Option Nat) :
    ∀ (ss : List SheetCfg) (db : DB),
      attemptedSheets (processSheets parse db ss).2 = ss.map SheetCfg.wsName := by
  intro ss
  induction ss with
  | nil => intro db; rfl
  | cons s rest ih =>
    intro db
    simp [processSheets, attemptedSheets_append, processSheet_attempts, ih]

theorem processGroups_attempts (parse : Value → Option Nat) :
    ∀ (gs : List GroupCfg) (db : DB),
      attemptedSheets (processGroups parse db gs).2 =
        gs.flatMap (fun g => if g.openOk then g.sheets.map SheetCfg.wsName else []) := by
  intro gs
  induction gs with
  | nil => intro db; rfl
  | cons g rest ih =>
    intro db
    by_cases ho : g.openOk
    · simp only [processGroups, processGroup, ho, if_true]
      rw [attemptedSheets_append,
        attemptedSheets_cons_other _ _ (fun w => by simp),
        processSheets_attempts, ih]
      simp [ho]
    · simp only [processGroups, processGroup, ho, Bool.false_eq_true, if_false]
      rw [attemptedSheets_append,
        attemptedSheets_cons_other _ _ (fun w => by simp),
        ih]
      have : attemptedSheets ([] : List Event) = [] := rfl
      rw [this]
      simp [ho]

/-- C7: in a run whose connections and configuration succeed, the run
never ends fatally, and the worksheets attempted are exactly all the
worksheets of every group whose spreadsheet opened, in order — a fetch
or insert error in one worksheet does not prevent the following
worksheets, and a spreadsheet that cannot be opened skips exactly its
own group. -/
theorem per_unit_errors_do_not_abort (cfg : RunCfg)
    (hm : missingEnv cfg.env = []) (hdb : cfg.dbConnectOk = true)
    (hg : cfg.gsheetOk = true) (hc : cfg.configReadable = true) :
    (scriptRun cfg).fatal = none ∧
    attemptedSheets (scriptRun cfg).events =
      cfg.groups.flatMap (fun g => if g.openOk then g.sheets.map SheetCfg.wsName else []) := by
  have hrun : scriptRun cfg = mainRun cfg := by simp [scriptRun, hm]
  have hmain : mainRun cfg = ⟨(processGroups cfg.parse [] cfg.groups).1,
      Event.dbConnect :: Event.gsheetAuth :: Event.configLoad ::
        ((processGroups cfg.parse [] cfg.groups).2 ++ [Event.connClosed]), none⟩ := by
    simp [mainRun, hdb, hg, hc]
  rw [hrun, hmain]
  refine ⟨rfl, ?_⟩
  rw [attemptedSheets_cons_other _ _ (fun w => by simp),
    attemptedSheets_cons_other _ _ (fun w => by simp),
    attemptedSheets_cons_other _ _ (fun w => by simp),
    attemptedSheets_append, processGroups_attempts]
  have : attemptedSheets [Event.connClosed] = [] := rfl
  rw [this, List.append_nil]

/-- Witness for C7: a run with one unopenable spreadsheet, one failing
worksheet and one succeeding worksheet attempts exactly the worksheets
of the opened group. -/
theorem per_unit_errors_do_not_abort_witness :
    (scriptRun ⟨fun _ => some "x", true, true, true,
        [⟨"f1", false, [⟨"w0", "t0", FetchOutcome.fails⟩]⟩,
         ⟨"f2", true, [⟨"w1", "t1", FetchOutcome.fails⟩,
                       ⟨"w2", "t2", FetchOutcome.ok ⟨["a"], [[Value.str "x"]]⟩⟩]⟩],
        noParse⟩).fatal = none ∧
    attemptedSheets (scriptRun ⟨fun _ => some "x", true, true, true,
        [⟨"f1", false, [⟨"w0", "t0", FetchOutcome.fails⟩]⟩,
         ⟨"f2", true, [⟨"w1", "t1", FetchOutcome.fails⟩,
                       ⟨"w2", "t2", FetchOutcome.ok ⟨["a"], [[Value.str "x"]]⟩⟩]⟩],
        noParse⟩).events =
      ([⟨"f1", false, [⟨"w0", "t0", FetchOutcome.fails⟩]⟩,
        ⟨"f2", true, [⟨"w1", "t1", FetchOutcome.fails⟩,
                      ⟨"w2", "t2", FetchOutcome.ok ⟨["a"], [[Value.str "x"]]⟩⟩]⟩] :
        List GroupCfg).flatMap
        (fun g => if g.openOk then g.sheets.map SheetCfg.wsName else []) :=
  per_unit_errors_do_not_abort
    ⟨fun _ => some "x", true, true, true,
      [⟨"f1", false, [⟨"w0", "t0", FetchOutcome.fails⟩]⟩,
       ⟨"f2", true, [⟨"w1", "t1", FetchOutcome.fails⟩,
                     ⟨"w2", "t2", FetchOutcome.ok ⟨["a"], [[Value.str "x"]]⟩⟩]⟩],
      noParse⟩ (by decide) rfl rfl rfl

/-! ### C2: the content hash is determined by row content -/

theorem char_toNat_inj {a b : Char} (h : a.toNat = b.toNat) : a = b :=
  Char.ext (UInt32.ext h)

theorem charListLe_total : ∀ a b : List Char,
    charListLe a b = true ∨ charListLe b a = true := by
  intro a
  induction a with
  | nil => intro b; left; rfl
  | cons x xs ih =>
    intro b
    cases b with
    | nil => right; rfl
    | cons y ys =>
      simp only [charListLe]
      rcases Nat.lt_trichotomy x.toNat y.toNat with h | h | h
      · left; simp [h]
      · simp only [h, Nat.lt_irrefl, if_false]
        exact ih ys
      · right; simp [h, Nat.lt_asymm h]

theorem charListLe_trans : ∀ a b c : List Char,
    charListLe a b = true → charListLe b c = true → charListLe a c = true := by
  intro a
  induction a with
  | nil => intro b c _ _; rfl
  | cons x xs ih =>
    intro b c hab hbc
    cases b with
    | nil => simp [charListLe] at hab
    | cons y ys =>
      cases c with
      | nil => simp [charListLe] at hbc
      | cons z zs =>
        simp only [charListLe] at hab hbc ⊢
        by_cases h1 : x.toNat < y.toNat
        · by_cases h2 : y.toNat < z.toNat
          · simp [show x.toNat < z.toNat from by omega]
          · by_cases h3 : z.toNat < y.toNat
            · simp [h2, h3] at hbc
            · simp [show x.toNat < z.toNat from by omega]
        · by_cases h4 : y.toNat < x.toNat
          · simp [h1, h4] at hab
          · by_cases h2 : y.toNat < z.toNat
            · simp [show x.toNat < z.toNat from by omega]
            · by_cases h3 : z.toNat < y.toNat
              · simp [h2, h3] at hbc
              · have hx : ¬ x.toNat < z.toNat := by omega
                have hz : ¬ z.toNat < x.toNat := by omega
                simp only [h1, h4, if_false] at hab
                simp only [h2, h3, if_false] at hbc
                simp only [hx, hz, if_false]
                exact ih ys zs hab hbc

theorem charListLe_antisymm : ∀ a b : List Char,
    charListLe a b = true → charListLe b a = true → a = b := by
  intro a
  induction a with
  | nil =>
    intro b _ hba
    cases b with
    | nil => rfl
    | cons y ys => simp [charListLe] at hba
  | cons x xs ih =>
    intro b hab hba
    cases b with
    | nil => simp [charListLe] at hab
    | cons y ys =>
      simp only [charListLe] at hab hba
      split_ifs at hab hba with h1 h2
      · omega
      · have hxy : x = y := char_toNat_inj (by omega)
        rw [hxy, ih ys hab hba]

theorem string_data_inj {s t : String} (h : s.data = t.data) : s = t := by
  cases s
  cases t
  exact congrArg String.mk h

instance : IsTotal (String × String) keyLe :=
  ⟨fun a b => by
    rcases charListLe_total a.1.data b.1.data with h | h
    · exact Or.inl h
    · exact Or.inr h⟩

instance : IsTrans (String × String) keyLe :=
  ⟨fun a b c hab hbc => charListLe_trans a.1.data b.1.data c.1.data hab hbc⟩

/-- Strict key order: key-ordered with distinct keys. -/
def keyLt (a b : String × String) : Prop := keyLe a b ∧ a.1 ≠ b.1

instance : IsAntisymm (String × String) keyLt :=
  ⟨fun a b hab hba =>
    absurd (string_data_inj (charListLe_antisymm a.1.data b.1.data hab.1 hba.1)) hab.2⟩

theorem sorted_keyLt (l : List (String × String)) (hs : List.Sorted keyLe l)
    (hnd : (l.map Prod.fst).Nodup) : List.Sorted keyLt l := by
  have hnd2 : l.Pairwise (fun a b : String × String => a.1 ≠ b.1) :=
    List.pairwise_map.mp hnd
  exact hs.and hnd2

/-- Sorting by key sends key-permuted lists with distinct keys to the
same sorted list. -/
theorem sortPairs_eq_of_perm (l1 l2 : List (String × String))
    (hp : l1.Perm l2) (hnd : (l1.map Prod.fst).Nodup) :
    List.insertionSort keyLe l1 = List.insertionSort keyLe l2 := by
  have h1 : (List.insertionSort keyLe l1).Perm (List.insertionSort keyLe l2) :=
    (List.perm_insertionSort keyLe l1).trans (hp.trans (List.perm_insertionSort keyLe l2).symm)
  have hnd1 : ((List.insertionSort keyLe l1).map Prod.fst).Nodup :=
    (((List.perm_insertionSort keyLe l1).map Prod.fst).nodup_iff).mpr hnd
  have hnd2 : ((List.insertionSort keyLe l2).map Prod.fst).Nodup :=
    ((h1.map Prod.fst).nodup_iff).mp hnd1
  exact List.eq_of_perm_of_sorted h1
    (sorted_keyLt _ (List.sorted_insertionSort keyLe l1) hnd1)
    (sorted_keyLt _ (List.sorted_insertionSort keyLe l2) hnd2)

/-- Building the payload dict from pairs with distinct keys returns the
pairs unchanged. -/
theorem dictOfPairs_eq_self_aux : ∀ (l acc : List (String × String)),
    ((acc ++ l).map Prod.fst).Nodup → l.foldl dictInsert acc = acc ++ l := by
  intro l
  induction l with
  | nil => intro acc _; rw [List.foldl_nil, List.append_nil]
  | cons kv rest ih =>
    intro acc hnd
    have hkey : kv.1 ∉ acc.map Prod.fst := by
      intro hmem
      have h1 : ((acc.map Prod.fst) ++ (kv.1 :: rest.map Prod.fst)).Nodup := by
        simpa using hnd
      rcases List.nodup_append.mp h1 with ⟨_, _, hdisj⟩
      exact hdisj hmem (List.mem_cons_self _ _)
    have hany : acc.any (fun p => p.1 == kv.1) = false := by
      rw [List.any_eq_false]
      intro p hp he
      exact hkey (eq_of_beq he ▸ List.mem_map_of_mem Prod.fst hp)
    have hstep : dictInsert acc kv = acc ++ [kv] := by
      simp [dictInsert, hany]
    calc (kv :: rest).foldl dictInsert acc
        = rest.foldl dictInsert (acc ++ [kv]) := by rw [List.foldl_cons, hstep]
      _ = (acc ++ [kv]) ++ rest := ih (acc ++ [kv]) (by simpa using hnd)
      _ = acc ++ kv :: rest := by simp

theorem dictOfPairs_eq_self (l : List (String × String))
    (hnd : (l.map Prod.fst).Nodup) : dictOfPairs l = l := by
  simpa using dictOfPairs_eq_self_aux l [] (by simpa using hnd)

/-- The row with every value normalized the way row_to_hash normalizes
them (missing becomes empty string, everything else its str() form). -/
def normRow (r : List (String × Value)) : List (String × String) :=
  r.map (fun kv => (kv.1, normStr kv.2))

theorem normRow_keys (r : List (String × Value)) :
    (normRow r).map Prod.fst = r.map Prod.fst := by
  simp [normRow]

theorem rowPayload_eq_dict_normRow (r : List (String × Value)) :
    rowPayload r = dictOfPairs (normRow r) := rfl

/-- C2: row_to_hash is a function of the normalized row content only —
two rows whose normalized column-to-value associations are permutations
of one another (same column names, equal values after missing values
normalize to the empty string, in any key order) hash identically; and
hashing the same row twice yields the same digest. -/
theorem row_to_hash_content_determined (r1 r2 : List (String × Value))
    (hnd : (r1.map Prod.fst).Nodup)
    (hp : (normRow r1).Perm (normRow r2)) :
    row_to_hash r1 = row_to_hash r2 ∧ row_to_hash r1 = row_to_hash r1 := by
  refine ⟨?_, rfl⟩
  have hnd1 : ((normRow r1).map Prod.fst).Nodup := by
    rw [normRow_keys]; exact hnd
  have hnd2 : ((normRow r2).map Prod.fst).Nodup :=
    ((hp.map Prod.fst).nodup_iff).mp hnd1
  unfold row_to_hash
  rw [rowPayload_eq_dict_normRow, rowPayload_eq_dict_normRow,
    dictOfPairs_eq_self _ hnd1, dictOfPairs_eq_self _ hnd2,
    sortPairs_eq_of_perm _ _ hp hnd1]

/-- Witness for C2: one row lists column b (missing) before column a;
the other lists a before b with the empty string in b.  Their digests
agree. -/
theorem row_to_hash_content_determined_witness :
    (([("b", Value.na), ("a", Value.str "x")].map
        (Prod.fst (α := String) (β := Value))).Nodup) ∧
    (normRow [("b", Value.na), ("a", Value.str "x")]).Perm
      (normRow [("a", Value.str "x"), ("b", Value.str "")]) ∧
    row_to_hash [("b", Value.na), ("a", Value.str "x")] =
      row_to_hash [("a", Value.str "x"), ("b", Value.str "")] :=
  ⟨by decide, by decide,
   (row_to_hash_content_determined
     [("b", Value.na), ("a", Value.str "x")]
     [("a", Value.str "x"), ("b", Value.str "")]
     (by decide) (by decide)).1⟩

/-! ### C5: timestamp normalization

coerce_timestamps matches six exact-case candidate names, while the
schema manager types columns case-insensitively: a column such as
Created_At is declared TIMESTAMP but never parsed, so its unparseable
values reach the insert as text, not as null. -/

theorem zip_map_vals : ∀ (cols : List String) (r : List Value) (g : String × Value → Value),
    cols.zip ((cols.zip r).map g) = (cols.zip r).map (fun cv => (cv.1, g cv)) := by
  intro cols
  induction cols with
  | nil => intro r g; rfl
  | cons c cs ih =>
    intro r g
    cases r with
    | nil => rfl
    | cons v vs => simp [ih]

theorem zip_map_snd : ∀ (cols : List String) (r : List Value) (f : Value → DBVal),
    cols.zip (r.map f) = (cols.zip r).map (fun cv => (cv.1, f cv.2)) := by
  intro cols
  induction cols with
  | nil => intro r f; rfl
  | cons c cs ih =>
    intro r f
    cases r with
    | nil => rfl
    | cons v vs => simp [ih]

/-- Every value sitting under the named column is a parsed timestamp or
missing. -/
def colParsed (cand : String) (df : DataFrame) : Prop :=
  ∀ r ∈ df.rows, ∀ cv ∈ df.cols.zip r, cv.1 = cand →
    (cv.2 = Value.na ∨ ∃ t, cv.2 = Value.ts t)

/-- Every row is exactly as long as the column list. -/
def rectangular (df : DataFrame) : Prop := ∀ r ∈ df.rows, r.length = df.cols.length

theorem coerceCol_cols (parse : Value → Option Nat) (c : String) (df : DataFrame) :
    (coerceCol parse c df).cols = df.cols := by
  simp only [coerceCol]
  split <;> rfl

theorem coerceCol_rect (parse : Value → Option Nat) (c : String) (df : DataFrame)
    (h : rectangular df) : rectangular (coerceCol parse c df) := by
  intro r hr
  rw [coerceCol_cols]
  simp only [coerceCol] at hr
  split at hr
  · obtain ⟨r0, hr0, rfl⟩ := List.mem_map.mp hr
    have := h r0 hr0
    simp only [List.length_map, List.length_zip]
    omega
  · exact h r hr

theorem coerceCol_establishes (parse : Value → Option Nat) (cand : String) (df : DataFrame)
    (hm : cand ∈ df.cols) : colParsed cand (coerceCol parse cand df) := by
  intro r hr cv hcv hkey
  simp only [coerceCol, hm, if_pos] at hr
  obtain ⟨r0, hr0, rfl⟩ := List.mem_map.mp hr
  rw [coerceCol_cols, zip_map_vals] at hcv
  obtain ⟨cv0, _, rfl⟩ := List.mem_map.mp hcv
  simp only at hkey
  rw [hkey]
  simp only [if_pos]
  cases hp : parse cv0.2 with
  | none => left; simp [parseVal, hp]
  | some t => right; exact ⟨t, by simp [parseVal, hp]⟩

theorem coerceCol_preserves (parse : Value → Option Nat) (c cand : String) (df : DataFrame)
    (h : colParsed cand df) : colParsed cand (coerceCol parse c df) := by
  by_cases hm : c ∈ df.cols
  · intro r hr cv hcv hkey
    simp only [coerceCol, hm, if_pos] at hr
    obtain ⟨r0, hr0, rfl⟩ := List.mem_map.mp hr
    rw [coerceCol_cols, zip_map_vals] at hcv
    obtain ⟨cv0, hcv0, rfl⟩ := List.mem_map.mp hcv
    simp only at hkey
    by_cases he : cv0.1 = c
    · simp only [he, if_pos]
      cases hp : parse cv0.2 with
      | none => left; simp [parseVal, hp]
      | some t => right; exact ⟨t, by simp [parseVal, hp]⟩
    · simp only [he, if_neg, if_false]
      exact h r0 hr0 cv0 hcv0 hkey
  · have : coerceCol parse c df = df := by simp [coerceCol, hm]
    rw [this]
    exact h

theorem foldl_coerce_cols (parse : Value → Option Nat) :
    ∀ (cs : List String) (df : DataFrame),
      (cs.foldl (fun d c => coerceCol parse c d) df).cols = df.cols := by
  intro cs
  induction cs with
  | nil => intro df; rfl
  | cons c rest ih =>
    intro df
    rw [List.foldl_cons, ih, coerceCol_cols]

theorem foldl_coerce_preserves (parse : Value → Option Nat) (cand : String) :
    ∀ (cs : List String) (df : DataFrame), colParsed cand df →
      colParsed cand (cs.foldl (fun d c => coerceCol parse c d) df) := by
  intro cs
  induction cs with
  | nil => intro df h; exact h
  | cons c rest ih =>
    intro df h
    exact ih _ (coerceCol_preserves parse c cand df h)

theorem foldl_coerce_rect (parse : Value → Option Nat) :
    ∀ (cs : List String) (df : DataFrame), rectangular df →
      rectangular (cs.foldl (fun d c => coerceCol parse c d) df) := by
  intro cs
  induction cs with
  | nil => intro df h; exact h
  | cons c rest ih =>
    intro df h
    exact ih _ (coerceCol_rect parse c df h)

theorem foldl_coerce_establishes (parse : Value → Option Nat) (cand : String) :
    ∀ (cs : List String) (df : DataFrame), cand ∈ cs → cand ∈ df.cols →
      colParsed cand (cs.foldl (fun d c => coerceCol parse c d) df) := by
  intro cs
  induction cs with
  | nil => intro df h; exact absurd h (List.not_mem_nil cand)
  | cons c rest ih =>
    intro df hmem hcol
    rcases List.mem_cons.mp hmem with heq | hrest
    · subst heq
      exact foldl_coerce_preserves parse cand rest _ (coerceCol_establishes parse cand df hcol)
    · exact ih _ hrest (by rw [coerceCol_cols]; exact hcol)

theorem coerceCol_rows_len (parse : Value → Option Nat) (c : String) (df : DataFrame) :
    (coerceCol parse c df).rows.length = df.rows.length := by
  simp only [coerceCol]
  split <;> simp

theorem foldl_coerce_rows_len (parse : Value → Option Nat) :
    ∀ (cs : List String) (df : DataFrame),
      (cs.foldl (fun d c => coerceCol parse c d) df).rows.length = df.rows.length := by
  intro cs
  induction cs with
  | nil => intro df; rfl
  | cons c rest ih =>
    intro df
    rw [List.foldl_cons, ih, coerceCol_rows_len]

theorem ensure_rows_len (df : DataFrame) :
    (ensure_row_hash df).rows.length = df.rows.length := by
  simp only [ensure_row_hash]
  split <;> simp

theorem ensure_preserves_colParsed (df : DataFrame) (cand : String)
    (hne2 : cand ≠ "_row_hash") (hrect : rectangular df) (h : colParsed cand df) :
    colParsed cand (ensure_row_hash df) := by
  by_cases hmem : "_row_hash" ∈ df.cols
  · simpa [ensure_row_hash, hmem] using h
  · intro r hr cv hcv hkey
    simp only [ensure_row_hash, hmem, if_neg, if_false] at hr hcv
    obtain ⟨r0, hr0, rfl⟩ := List.mem_map.mp hr
    rw [List.zip_append (hrect r0 hr0).symm] at hcv
    rcases List.mem_append.mp hcv with hm | hm
    · exact h r0 hr0 cv hm hkey
    · simp only [List.zip_cons_cons, List.zip_nil_right, List.mem_singleton] at hm
      rw [hm] at hkey
      simp only at hkey
      exact absurd hkey.symm hne2

theorem tupleVal_rowTuple (cols : List String) (r : List Value) (cand : String) :
    tupleVal (rowTuple cols r) cand =
      match (cols.zip r).find? (fun cv => cv.1 == cand) with
      | none => DBVal.null
      | some cv => toDBVal cv.2 := by
  unfold tupleVal rowTuple
  rw [zip_map_snd, List.find?_map]
  have hpred : ((fun p : String × DBVal => p.1 == cand) ∘
      (fun cv : String × Value => (cv.1, toDBVal cv.2))) =
      (fun cv : String × Value => cv.1 == cand) := rfl
  rw [hpred]
  cases (cols.zip r).find? (fun cv => cv.1 == cand) <;> rfl

/-- C5 counterexample: the column Created_At is timestamp-like under the
schema manager's case-insensitive convention, yet coerce_timestamps
leaves it untouched and its unparseable value is inserted as text, not
null. -/
theorem case_variant_timestamp_not_coerced :
    lowerStr "Created_At" ∈ tsAliases ∧
    coerce_timestamps noParse ⟨["Created_At"], [[Value.str "garbage"]]⟩ =
      ⟨["Created_At"], [[Value.str "garbage"]]⟩ ∧
    tupleVal ((batchTuples noParse ⟨["Created_At"], [[Value.str "garbage"]]⟩).getD 0 [])
      "Created_At" = DBVal.str "garbage" :=
  ⟨by decide, by decide, by decide⟩

/-- C5 amended: for every column whose name is literally one of the six
candidate names the script checks, every cell of the normalized batch in
that column reaches the insert as NULL or as a parsed timestamp — an
unparseable value becomes null — and no row is dropped (the batch keeps
its row count).  Columns matching the alias convention only
case-insensitively are not covered (see the counterexample). -/
theorem coerce_exact_names_null_on_unparseable (parse : Value → Option Nat) (df : DataFrame)
    (cand : String) (hcand : cand ∈ coerceCands) (hcol : cand ∈ df.cols)
    (hrect : ∀ r ∈ df.rows, r.length = df.cols.length) :
    (normBatch parse df).rows.length = df.rows.length ∧
    ∀ t ∈ batchTuples parse df,
      (tupleVal t cand = DBVal.null ∨ ∃ n, tupleVal t cand = DBVal.ts n) := by
  have hcand_ne : cand ≠ "_row_hash" := by
    intro heq
    rw [heq] at hcand
    revert hcand
    decide
  constructor
  · rw [normBatch, ensure_rows_len, coerce_timestamps, foldl_coerce_rows_len]
  · intro t ht
    obtain ⟨r, hr, rfl⟩ := List.mem_map.mp ht
    rw [tupleVal_rowTuple]
    have hparsed : colParsed cand (normBatch parse df) := by
      apply ensure_preserves_colParsed _ _ hcand_ne
      · exact foldl_coerce_rect parse coerceCands df hrect
      · exact foldl_coerce_establishes parse cand coerceCands df hcand hcol
    cases hf : ((normBatch parse df).cols.zip r).find? (fun cv => cv.1 == cand) with
    | none => left; rfl
    | some cv =>
      have hmem : cv ∈ (normBatch parse df).cols.zip r := List.mem_of_find?_eq_some hf
      have hkey : cv.1 = cand := by
        have := List.find?_some hf
        exact eq_of_beq this
      rcases hparsed r hr cv hmem hkey with hna | ⟨tt, hts⟩
      · left
        show toDBVal cv.2 = DBVal.null
        rw [hna]
        rfl
      · right
        refine ⟨tt, ?_⟩
        show toDBVal cv.2 = DBVal.ts tt
        rw [hts]
        rfl

/-- Witness for the amended C5 on a concrete batch with an unparseable
created_at value. -/
theorem coerce_exact_names_witness :
    (normBatch noParse ⟨["created_at"], [[Value.str "bad"]]⟩).rows.length =
      (DataFrame.rows ⟨["created_at"], [[Value.str "bad"]]⟩).length ∧
    ∀ t ∈ batchTuples noParse ⟨["created_at"], [[Value.str "bad"]]⟩,
      (tupleVal t "created_at" = DBVal.null ∨ ∃ n, tupleVal t "created_at" = DBVal.ts n) :=
  coerce_exact_names_null_on_unparseable noParse ⟨["created_at"], [[Value.str "bad"]]⟩
    "created_at" (by decide) (by decide) (by decide)

/-! ### C1: idempotence of the upsert under the chosen conflict target

ON CONFLICT DO NOTHING deduplicates only rows whose conflict-target
value is non-null: a NULL natural key never conflicts, slips past the
arbiter, and then collides with the always-present _row_hash unique
index, aborting the batch.  With non-null target values the engine is
idempotent. -/

theorem execValues_ok_spec (idxs : List String) (target : String) :
    ∀ (tuples stored final : List (List (String × DBVal))),
      execValues idxs target stored tuples = Except.ok final →
      (∀ t ∈ tuples, tupleVal t target ≠ DBVal.null) →
      (stored.map (fun r => tupleVal r target)).Nodup →
      ((final.map (fun r => tupleVal r target)).Nodup ∧
       ∀ v, v ∈ final.map (fun r => tupleVal r target) ↔
            (v ∈ stored.map (fun r => tupleVal r target) ∨
             v ∈ tuples.map (fun t => tupleVal t target))) := by
  intro tuples
  induction tuples with
  | nil =>
    intro stored final hok hnn hnd
    simp only [execValues] at hok
    cases hok
    exact ⟨hnd, fun v => by simp⟩
  | cons t ts ih =>
    intro stored final hok hnn hnd
    simp only [execValues] at hok
    cases hio : insertOne idxs target stored t with
    | error e =>
      rw [hio] at hok
      exact absurd hok (by simp)
    | ok stored2 =>
      rw [hio] at hok
      simp only at hok
      simp only [insertOne] at hio
      by_cases hconf : tupleVal t target ≠ DBVal.null ∧
          ∃ r ∈ stored, tupleVal r target = tupleVal t target
      · -- conflict on the target: tuple skipped, stored2 = stored
        rw [if_pos hconf] at hio
        cases hio
        obtain ⟨hnd2, hiff⟩ :=
          ih stored final hok (fun t2 ht2 => hnn t2 (List.mem_cons_of_mem _ ht2)) hnd
        refine ⟨hnd2, fun v => ?_⟩
        rw [hiff v]
        constructor
        · rintro (h | h)
          · exact Or.inl h
          · exact Or.inr (by simp only [List.map_cons, List.mem_cons]; exact Or.inr h)
        · rintro (h | h)
          · exact Or.inl h
          · rw [List.map_cons, List.mem_cons] at h
            rcases h with heq | hmem
            · subst heq
              obtain ⟨r, hr, he⟩ := hconf.2
              exact Or.inl (List.mem_map.mpr ⟨r, hr, he⟩)
            · exact Or.inr hmem
      · rw [if_neg hconf] at hio
        by_cases hviol : ∃ i ∈ idxs, i ≠ target ∧ tupleVal t i ≠ DBVal.null ∧
            ∃ r ∈ stored, tupleVal r i = tupleVal t i
        · rw [if_pos hviol] at hio
          cases hio
        · -- tuple inserted: stored2 = stored ++ [t]
          rw [if_neg hviol] at hio
          cases hio
          have hnotmem : tupleVal t target ∉ stored.map (fun r => tupleVal r target) := by
            intro hmem
            apply hconf
            refine ⟨hnn t (List.mem_cons_self _ _), ?_⟩
            obtain ⟨r, hr, he⟩ := List.mem_map.mp hmem
            exact ⟨r, hr, he⟩
          have hnd2 : ((stored ++ [t]).map (fun r => tupleVal r target)).Nodup := by
            rw [List.map_append]
            simp only [List.nodup_append, List.map_cons, List.map_nil]
            refine ⟨hnd, List.nodup_singleton _, ?_⟩
            intro a ha hb
            simp only [List.mem_singleton] at hb
            subst hb
            exact hnotmem ha
          obtain ⟨hnd3, hiff⟩ :=
            ih (stored ++ [t]) final hok (fun t2 ht2 => hnn t2 (List.mem_cons_of_mem _ ht2)) hnd2
          refine ⟨hnd3, fun v => ?_⟩
          rw [hiff v]
          simp only [List.map_append, List.mem_append, List.map_cons, List.mem_cons,
            List.map_nil, List.mem_singleton, List.not_mem_nil, or_false]
          tauto

theorem execValues_skip_all (idxs : List String) (target : String) :
    ∀ (tuples stored : List (List (String × DBVal))),
      (∀ t ∈ tuples, tupleVal t target ≠ DBVal.null ∧
        tupleVal t target ∈ stored.map (fun r => tupleVal r target)) →
      execValues idxs target stored tuples = Except.ok stored := by
  intro tuples
  induction tuples with
  | nil => intro stored _; rfl
  | cons t ts ih =>
    intro stored h
    have h1 := h t (List.mem_cons_self _ _)
    have hconf : tupleVal t target ≠ DBVal.null ∧
        ∃ r ∈ stored, tupleVal r target = tupleVal t target := by
      refine ⟨h1.1, ?_⟩
      obtain ⟨r, hr, he⟩ := List.mem_map.mp h1.2
      exact ⟨r, hr, he⟩
    have hio : insertOne idxs target stored t = Except.ok stored := by
      simp only [insertOne]
      rw [if_pos hconf]
    simp only [execValues, hio]
    exact ih stored (fun t2 ht2 => h t2 (List.mem_cons_of_mem _ ht2))

theorem create_none_ok_spec (df : DataFrame) (t : Table)
    (h : (create_table_if_not_exists none df).2 = Except.ok t) :
    t.rows = [] ∧ t.schema = buildSchema df ∧
    ("cdn" ∈ (existingCols df).map lowerStr → t.indexes = ["cdn", "_row_hash"]) ∧
    ("cdn" ∉ (existingCols df).map lowerStr → t.indexes = ["_row_hash"]) := by
  have hrh : "_row_hash" ∈ (buildSchema df).map Prod.fst := by
    rw [buildSchema_names]
    exact List.mem_append_right _ (List.mem_singleton.mpr rfl)
  have hx : "_row_hash" ∉ (["cdn"] : List String) := by decide
  by_cases hnd : ((buildSchema df).map Prod.fst).Nodup
  · by_cases hm : "cdn" ∈ (existingCols df).map lowerStr
    · by_cases hc : "cdn" ∈ (buildSchema df).map Prod.fst
      · simp only [create_table_if_not_exists, hnd, if_true, hm, addIndex,
          List.not_mem_nil, if_false, hc, if_pos, List.nil_append, hx, hrh] at h
        cases h
        exact ⟨rfl, rfl, fun _ => rfl, fun hn => absurd hm hn⟩
      · simp [create_table_if_not_exists, hnd, hm, addIndex, hc] at h
    · simp only [create_table_if_not_exists, hnd, if_true, hm, if_false, addIndex,
        List.not_mem_nil, hrh, if_pos, List.nil_append] at h
      cases h
      exact ⟨rfl, rfl, fun hn => absurd hn hm, fun _ => rfl⟩
  · simp [create_table_if_not_exists, hnd] at h

theorem create_some_noop (df : DataFrame) (t : Table)
    (h1 : "cdn" ∈ (existingCols df).map lowerStr → "cdn" ∈ t.indexes)
    (h2 : "_row_hash" ∈ t.indexes) :
    (create_table_if_not_exists (some t) df).2 = Except.ok t := by
  by_cases hm : "cdn" ∈ (existingCols df).map lowerStr
  · simp [create_table_if_not_exists, addIndex, hm, h1 hm, h2]
  · simp [create_table_if_not_exists, addIndex, hm, h2]

/-- C1 counterexample: a batch of two identical rows whose natural key
cdn is missing.  The NULL cdn values never conflict on the chosen
conflict target, so the duplicate is not skipped; it instead violates
the always-created _row_hash unique index: the whole batch errors and
rolls back, and zero rows persist — not exactly one. -/
theorem null_natural_key_breaks_idempotence :
    (insert_new_rows noParse none
        ⟨["cdn", "v"], [[Value.na, Value.str "x"], [Value.na, Value.str "x"]]⟩).err =
      some DBError.uniqueViolation ∧
    (insert_new_rows noParse none
        ⟨["cdn", "v"], [[Value.na, Value.str "x"], [Value.na, Value.str "x"]]⟩).state = none :=
  ⟨by decide, by decide⟩

/-- C1 amended: when every tuple of the batch carries a non-null value
in the chosen conflict target (always true for the _row_hash target;
for the cdn target it excludes missing natural keys) and the first run
succeeds, then: the first run persists exactly one row per distinct
conflict-target value of the batch, and the second run on the same
batch succeeds, inserting nothing and leaving the table unchanged. -/
theorem upsert_idempotent_on_nonnull_target (parse : Value → Option Nat) (df : DataFrame)
    (hne : df.empty = false)
    (hok : (insert_new_rows parse none df).err = none)
    (hnn : ∀ t ∈ batchTuples parse df,
        tupleVal t (conflictTargetOf (normBatch parse df).cols) ≠ DBVal.null) :
    (insert_new_rows parse (insert_new_rows parse none df).state df).err = none ∧
    (insert_new_rows parse (insert_new_rows parse none df).state df).state =
      (insert_new_rows parse none df).state ∧
    (∃ tbl : Table, (insert_new_rows parse none df).state = some tbl ∧
      (tbl.rows.map (fun r => tupleVal r (conflictTargetOf (normBatch parse df).cols))).Nodup ∧
      ∀ v, v ∈ tbl.rows.map (fun r => tupleVal r (conflictTargetOf (normBatch parse df).cols)) ↔
           v ∈ (batchTuples parse df).map
             (fun t => tupleVal t (conflictTargetOf (normBatch parse df).cols))) := by
  cases hcr : (create_table_if_not_exists none (normBatch parse df)).2 with
  | error e =>
    rw [insert_new_rows_nonempty parse none df hne] at hok
    rw [hcr] at hok
    exact absurd hok (by simp)
  | ok tb0 =>
    cases hex : execValues tb0.indexes (conflictTargetOf (normBatch parse df).cols) tb0.rows
        (batchTuples parse df) with
    | error e =>
      rw [insert_new_rows_nonempty parse none df hne] at hok
      rw [hcr] at hok
      simp only at hok
      rw [hex] at hok
      exact absurd hok (by simp)
    | ok rows1 =>
      have hr1 : insert_new_rows parse none df =
          ⟨some { tb0 with rows := rows1 },
           (create_table_if_not_exists none (normBatch parse df)).1 ++
             [DBOp.insertVals (batchTuples parse df).length, DBOp.commit], none⟩ := by
        rw [insert_new_rows_nonempty parse none df hne, hcr]
        simp only
        rw [hex]
      obtain ⟨hrows0, _, hidx_yes, hidx_no⟩ := create_none_ok_spec _ tb0 hcr
      have hnd0 : (tb0.rows.map
          (fun r => tupleVal r (conflictTargetOf (normBatch parse df).cols))).Nodup := by
        rw [hrows0]
        exact List.nodup_nil
      obtain ⟨hnd1, hiff⟩ :=
        execValues_ok_spec tb0.indexes (conflictTargetOf (normBatch parse df).cols)
          (batchTuples parse df) tb0.rows rows1 hex hnn hnd0
      have hiff2 : ∀ v,
          v ∈ rows1.map (fun r => tupleVal r (conflictTargetOf (normBatch parse df).cols)) ↔
          v ∈ (batchTuples parse df).map
            (fun t => tupleVal t (conflictTargetOf (normBatch parse df).cols)) := by
        intro v
        rw [hiff v, hrows0]
        simp
      have hidx_rh : "_row_hash" ∈ tb0.indexes := by
        by_cases hm : "cdn" ∈ (existingCols (normBatch parse df)).map lowerStr
        · rw [hidx_yes hm]; simp
        · rw [hidx_no hm]; simp
      have hidx_cdn : "cdn" ∈ (existingCols (normBatch parse df)).map lowerStr →
          "cdn" ∈ tb0.indexes := by
        intro hm
        rw [hidx_yes hm]
        simp
      have hcr2 : (create_table_if_not_exists (some ({ tb0 with rows := rows1 } : Table))
          (normBatch parse df)).2 = Except.ok { tb0 with rows := rows1 } :=
        create_some_noop _ _ (fun hm => hidx_cdn hm) hidx_rh
      have hskip : execValues tb0.indexes (conflictTargetOf (normBatch parse df).cols) rows1
          (batchTuples parse df) = Except.ok rows1 := by
        apply execValues_skip_all
        intro t ht
        refine ⟨hnn t ht, ?_⟩
        rw [hiff2]
        exact List.mem_map_of_mem _ ht
      have hr2 : insert_new_rows parse (some { tb0 with rows := rows1 }) df =
          ⟨some { tb0 with rows := rows1 },
           (create_table_if_not_exists (some ({ tb0 with rows := rows1 } : Table))
             (normBatch parse df)).1 ++
             [DBOp.insertVals (batchTuples parse df).length, DBOp.commit], none⟩ := by
        rw [insert_new_rows_nonempty parse _ df hne, hcr2]
        dsimp only
        rw [hskip]
      rw [hr1]
      simp only
      rw [hr2]
      refine ⟨rfl, rfl, ⟨{ tb0 with rows := rows1 }, rfl, ?_, ?_⟩⟩
      · exact hnd1
      · exact hiff2

/-- Witness for the amended C1: a batch with a duplicated natural key
A and a second key B, run twice from an empty database. -/
theorem upsert_idempotent_witness :
    (DataFrame.empty ⟨["cdn", "v"],
        [[Value.str "A", Value.str "x"], [Value.str "A", Value.str "y"],
         [Value.str "B", Value.str "x"]]⟩ = false) ∧
    ((insert_new_rows noParse none ⟨["cdn", "v"],
        [[Value.str "A", Value.str "x"], [Value.str "A", Value.str "y"],
         [Value.str "B", Value.str "x"]]⟩).err = none) ∧
    ((insert_new_rows noParse (insert_new_rows noParse none ⟨["cdn", "v"],
        [[Value.str "A", Value.str "x"], [Value.str "A", Value.str "y"],
         [Value.str "B", Value.str "x"]]⟩).state ⟨["cdn", "v"],
        [[Value.str "A", Value.str "x"], [Value.str "A", Value.str "y"],
         [Value.str "B", Value.str "x"]]⟩).err = none ∧
     (insert_new_rows noParse (insert_new_rows noParse none ⟨["cdn", "v"],
        [[Value.str "A", Value.str "x"], [Value.str "A", Value.str "y"],
         [Value.str "B", Value.str "x"]]⟩).state ⟨["cdn", "v"],
        [[Value.str "A", Value.str "x"], [Value.str "A", Value.str "y"],
         [Value.str "B", Value.str "x"]]⟩).state =
       (insert_new_rows noParse none ⟨["cdn", "v"],
        [[Value.str "A", Value.str "x"], [Value.str "A", Value.str "y"],
         [Value.str "B", Value.str "x"]]⟩).state ∧
     (∃ tbl : Table, (insert_new_rows noParse none ⟨["cdn", "v"],
        [[Value.str "A", Value.str "x"], [Value.str "A", Value.str "y"],
         [Value.str "B", Value.str "x"]]⟩).state = some tbl ∧
      (tbl.rows.map (fun r => tupleVal r (conflictTargetOf (normBatch noParse ⟨["cdn", "v"],
        [[Value.str "A", Value.str "x"], [Value.str "A", Value.str "y"],
         [Value.str "B", Value.str "x"]]⟩).cols))).Nodup ∧
      ∀ v, v ∈ tbl.rows.map (fun r => tupleVal r (conflictTargetOf (normBatch noParse ⟨["cdn", "v"],
        [[Value.str "A", Value.str "x"], [Value.str "A", Value.str "y"],
         [Value.str "B", Value.str "x"]]⟩).cols)) ↔
           v ∈ (batchTuples noParse ⟨["cdn", "v"],
        [[Value.str "A", Value.str "x"], [Value.str "A", Value.str "y"],
         [Value.str "B", Value.str "x"]]⟩).map
             (fun t => tupleVal t (conflictTargetOf (normBatch noParse ⟨["cdn", "v"],
        [[Value.str "A", Value.str "x"], [Value.str "A", Value.str "y"],
         [Value.str "B", Value.str "x"]]⟩).cols)))) :=
  ⟨by decide, by decide,
   upsert_idempotent_on_nonnull_target noParse
     ⟨["cdn", "v"],
      [[Value.str "A", Value.str "x"], [Value.str "A", Value.str "y"],
       [Value.str "B", Value.str "x"]]⟩
     (by decide) (by decide) (by decide)⟩

end GSheetETL
